import Mathlib

/-!
Shallow embedding of the MacOS-OT-Data-Stream-Bundle repository:
`opcua_server.py` (a mock OPC UA server exposing three simulated tags whose
values are re-drawn uniformly at random each second) and `opcua_client.py`
(a client that connects, resolves the device node, and polls the three tags
once per second).

The scripts delegate the tag store and transport to the external `opcua`
library.  Following the specification, the library-internal tag store is
modelled as an explicit registry (section 4.1 of the spec), and the two
loops are modelled as trace-producing functions over that registry.
-/

/-- Endpoint string the server passes to `server.set_endpoint`
(opcua_server.py line 16). -/
def serverEndpoint : String := "opc.tcp://0.0.0.0:4842"

/-- Endpoint string the client passes to the `Client` constructor
(opcua_client.py line 14). -/
def clientEndpoint : String := "opc.tcp://localhost:4841"

/-- Namespace URI the server registers (opcua_server.py line 20, variable
`uri`). -/
def uri : String := "http://example.com/mockopcua"

/-- Split a character list at every occurrence of `sep` (the accumulator
holds the current piece reversed). -/
def splitChar (sep : Char) : List Char → List Char → List (List Char)
  | [], acc => [acc.reverse]
  | c :: cs, acc =>
    if c = sep then acc.reverse :: splitChar sep cs []
    else splitChar sep cs (c :: acc)

/-- The numeric value of a decimal digit character, if it is one. -/
def digitVal? (c : Char) : Option Nat :=
  if 48 ≤ c.toNat ∧ c.toNat ≤ 57 then some (c.toNat - 48) else none

/-- Read a nonempty all-digit character list as a decimal number. -/
def digitsToNatGo : List Char → Nat → Option Nat
  | [], acc => some acc
  | c :: rest, acc =>
    match digitVal? c with
    | some d => digitsToNatGo rest (acc * 10 + d)
    | none => none

/-- Read a character list as a decimal number; empty or non-digit input
gives `none`. -/
def digitsToNat? (cs : List Char) : Option Nat :=
  match cs with
  | [] => none
  | _ => digitsToNatGo cs 0

/-- Extract the TCP port from an `opc.tcp://host:port` endpoint string:
the text after the last colon, read as a number. -/
def endpointPort (s : String) : Option Nat :=
  (splitChar ':' s.data []).getLast?.bind digitsToNat?

/-- Browse-path element the client uses for the Objects node
(opcua_client.py line 22). -/
def objectsPath : String := "0:Objects"

/-- Browse-path element the client uses for the device object
(opcua_client.py line 22). -/
def devicePath : String := "2:MockDevice"

/-- Browse-path element the client uses for the temperature tag
(opcua_client.py line 26). -/
def tempPath : String := "2:Temperature"

/-- Browse-path element the client uses for the pressure tag
(opcua_client.py line 27). -/
def pressurePath : String := "2:Pressure"

/-- Browse-path element the client uses for the flow-rate tag
(opcua_client.py line 28). -/
def flowPath : String := "2:FlowRate"

/-- Parse a qualified browse-path element `"idx:Name"` into its numeric
namespace index and browse name, as the library's `get_child` does. -/
def parseQualified (s : String) : Option (Nat × String) :=
  match splitChar ':' s.data [] with
  | [i, n] => (digitsToNat? i).map (fun k => (k, String.mk n))
  | _ => none

instance {ε α : Type} [DecidableEq ε] [DecidableEq α] :
    DecidableEq (Except ε α) := fun a b =>
  match a, b with
  | .ok x, .ok y =>
    if h : x = y then .isTrue (by rw [h])
    else .isFalse (by intro hc; cases hc; exact h rfl)
  | .ok _, .error _ => .isFalse (by intro hc; cases hc)
  | .error _, .ok _ => .isFalse (by intro hc; cases hc)
  | .error x, .error y =>
    if h : x = y then .isTrue (by rw [h])
    else .isFalse (by intro hc; cases hc; exact h rfl)

/-- A tag as the registry holds it: current scalar value and writable flag.
Values are modelled as rationals (the scripts only ever use exactly
representable decimal literals and arithmetic on them). -/
structure Tag where
  value : ℚ
  writable : Bool
deriving DecidableEq

/-- Modelled from the spec (section 4.1): the in-memory tag registry that
the `opcua` library maintains inside the server — an insertion-ordered
mapping from tag name to tag.  The repository only calls into it
(`add_variable`, `set_writable`, `set_value`, `get_value`); the store
itself lives in the external library and is reconstructed here from the
spec's registry contract. -/
def Registry : Type := List (String × Tag)

instance : DecidableEq Registry := by
  unfold Registry
  infer_instance

/-- Registry misuse errors from the spec's error taxonomy (section 7). -/
inductive RegError
  | DuplicateTagError
  | UnknownTagError
  | NotWritableError
deriving DecidableEq

/-- Look up a tag record by name. -/
def Registry.getTag (r : Registry) (name : String) : Option Tag :=
  match r with
  | [] => none
  | (n, t) :: rest => if n = name then some t else Registry.getTag rest name

/-- Modelled from the spec (section 4.1): `create(name, initialValue, writable)`
registers a new tag, failing with `DuplicateTagError` if the name exists.
This is what `mock_device.add_variable(idx, name, v)` does in the library. -/
def Registry.create (r : Registry) (name : String) (v : ℚ) (w : Bool) :
    Except RegError Registry :=
  match r.getTag name with
  | some _ => .error .DuplicateTagError
  | none => .ok (List.append r [(name, Tag.mk v w)])

/-- Modelled from the spec (section 4.1): `get(name)` returns the current
value, failing with `UnknownTagError` if absent.  This is what
`node.get_value()` reads on the server side. -/
def Registry.get (r : Registry) (name : String) : Except RegError ℚ :=
  match r.getTag name with
  | some t => .ok t.value
  | none => .error .UnknownTagError

/-- Modelled from the spec (section 4.1): `set(name, value)` overwrites the
current value, failing with `UnknownTagError` if absent or
`NotWritableError` if the writable flag is false.  This is what
`node.set_value(v)` does in the library. -/
def Registry.set (r : Registry) (name : String) (v : ℚ) :
    Except RegError Registry :=
  match r with
  | [] => .error .UnknownTagError
  | (n, t) :: rest =>
    if n = name then
      if t.writable then .ok ((n, Tag.mk v t.writable) :: rest)
      else .error .NotWritableError
    else
      match Registry.set rest name v with
      | .ok rest2 => .ok ((n, t) :: rest2)
      | .error e => .error e

/-- Mark a tag writable, as `node.set_writable()` does
(opcua_server.py lines 33-35); a missing name leaves the registry
unchanged. -/
def Registry.setWritable (r : Registry) (name : String) : Registry :=
  match r with
  | [] => []
  | (n, t) :: rest =>
    if n = name then (n, Tag.mk t.value true) :: rest
    else (n, t) :: Registry.setWritable rest name

/-- Server-side setup from opcua_server.py lines 27-35: create the three
variables with their default values under `MockDevice`, then mark each
writable. -/
def serverSetup : Except RegError Registry := do
  let r0 : Registry := []
  let r1 ← Registry.create r0 "Temperature" 25 false
  let r2 ← Registry.create r1 "Pressure" 1000 false
  let r3 ← Registry.create r2 "FlowRate" 10 false
  let r4 := Registry.setWritable r3 "Temperature"
  let r5 := Registry.setWritable r4 "Pressure"
  pure (Registry.setWritable r5 "FlowRate")

/-- The registry state produced by the server's setup code: the three tags
with their default values, all writable. -/
def setupReg : Registry :=
  [("Temperature", Tag.mk 25 true),
   ("Pressure", Tag.mk 1000 true),
   ("FlowRate", Tag.mk 10 true)]

/-- The three tag names, in the server's creation order
(opcua_server.py lines 28-30). -/
def tagNames : List String := ["Temperature", "Pressure", "FlowRate"]

/-- Observable events of the server process: `set_value` calls on a tag,
the per-tick print line (opcua_server.py line 54), other print lines,
entering `time.sleep(1)`, and `server.stop()`. -/
inductive SEvent
  | update (name : String) (v : ℚ)
  | tickLog (t p f : ℚ)
  | log (s : String)
  | sleepEv
  | stopEndpoint
deriving DecidableEq

/-- Python's `random.uniform(a, b)`, which computes `a + (b - a) * u` for a
draw `u` of `random.random()`. -/
def uniformDraw (a b u : ℚ) : ℚ := a + (b - a) * u

/-- The three `random.random()` draws consumed by one iteration of the
update loop (opcua_server.py lines 45-47). -/
structure Draw where
  uTemp : ℚ
  uPress : ℚ
  uFlow : ℚ
deriving DecidableEq

/-- A draw triple is valid when each component lies in `[0, 1)`, the range
of Python's `random.random()`. -/
def validDraw (d : Draw) : Prop :=
  (0 ≤ d.uTemp ∧ d.uTemp < 1) ∧
  (0 ≤ d.uPress ∧ d.uPress < 1) ∧
  (0 ≤ d.uFlow ∧ d.uFlow < 1)

instance (d : Draw) : Decidable (validDraw d) := by
  unfold validDraw
  infer_instance

/-- One iteration of the server's update loop (opcua_server.py lines
43-57): draw the three values, call `set_value` on each tag in creation
order, print the tick line, and enter the sleep.  The trace records the
`set_value` calls made up to the first failure; a failing `set` aborts the
iteration with its error. -/
def serverTick (r : Registry) (d : Draw) :
    List SEvent × Except RegError Registry :=
  let tempValue := uniformDraw 20 30 d.uTemp
  let pressureValue := uniformDraw 950 1050 d.uPress
  let flowValue := uniformDraw 5 15 d.uFlow
  match Registry.set r "Temperature" tempValue with
  | .error e => ([.update "Temperature" tempValue], .error e)
  | .ok r1 =>
    match Registry.set r1 "Pressure" pressureValue with
    | .error e =>
      ([.update "Temperature" tempValue, .update "Pressure" pressureValue],
       .error e)
    | .ok r2 =>
      match Registry.set r2 "FlowRate" flowValue with
      | .error e =>
        ([.update "Temperature" tempValue, .update "Pressure" pressureValue,
          .update "FlowRate" flowValue], .error e)
      | .ok r3 =>
        ([.update "Temperature" tempValue, .update "Pressure" pressureValue,
          .update "FlowRate" flowValue,
          .tickLog tempValue pressureValue flowValue, .sleepEv], .ok r3)

/-- Run the update loop for the given list of draw triples (one per
completed iteration); the loop stops early at the first failing iteration,
discarding the remaining draws.  Returns the trace, the final registry,
and the error that aborted the loop, if any.  An exhausted draw list
models the `KeyboardInterrupt` arriving during the last iteration's
sleep. -/
def serverLoopRun : Registry → List Draw → List SEvent × Registry × Option RegError
  | r, [] => ([], r, none)
  | r, d :: rest =>
    let t := serverTick r d
    match t.2 with
    | .error e => (t.1, r, some e)
    | .ok r2 =>
      let out := serverLoopRun r2 rest
      (t.1 ++ out.1, out.2.1, out.2.2)

/-- Events of the server's `except KeyboardInterrupt` / `finally` blocks
(opcua_server.py lines 59-63) on the interrupt path: print the shutdown
line, stop the endpoint, print the stopped line. -/
def serverShutdownEvents : List SEvent :=
  [.log "Shutting down server...", .stopEndpoint, .log "Server stopped."]

/-- Events of the server's `finally` block alone (opcua_server.py lines
61-63), run when a non-interrupt error propagates out of the loop. -/
def serverErrorEvents : List SEvent :=
  [.stopEndpoint, .log "Server stopped."]

/-- The server's `try`/`except KeyboardInterrupt`/`finally` structure
(opcua_server.py lines 41-63) starting from registry `r`: run the loop;
if it ends by interrupt (draws exhausted) print the shutdown line, stop
and print the stopped line, exiting cleanly; if an error aborted the loop,
run only the `finally` block and re-raise the error (process exits with
it). -/
def serverRunFrom (r : Registry) (draws : List Draw) :
    List SEvent × Except RegError Unit :=
  let out := serverLoopRun r draws
  match out.2.2 with
  | none => (out.1 ++ serverShutdownEvents, .ok ())
  | some e => (out.1 ++ serverErrorEvents, .error e)

/-- The declared `[min, max)` bound of each tag, from the comments and
`random.uniform` arguments of opcua_server.py lines 45-47. -/
def tagRange : String → Option (ℚ × ℚ)
  | "Temperature" => some (20, 30)
  | "Pressure" => some (950, 1050)
  | "FlowRate" => some (5, 15)
  | _ => none

/-- A value respects a tag's declared half-open bound. -/
def inBounds (name : String) (v : ℚ) : Prop :=
  ∀ lo hi, tagRange name = some (lo, hi) → lo ≤ v ∧ v < hi

/-- A registry contains all three tags with the writable flag raised. -/
def hasTags (r : Registry) : Prop :=
  ∀ n ∈ tagNames, (r.getTag n).map Tag.writable = some true

instance (r : Registry) : Decidable (hasTags r) := by
  unfold hasTags
  infer_instance

/-- Client-side errors from the spec's taxonomy (section 7). -/
inductive ClientError
  | ConnectionError
  | AddressNotFoundError
  | ReadError
deriving DecidableEq

/-- The server's address space as the transport exposes it to the client:
the namespace index that `server.register_namespace(uri)` returned
(opcua_server.py line 21, variable `idx`) and the tag registry. -/
structure ServerSpace where
  nsIdx : Nat
  registry : Registry

/-- Resolution of `root.get_child(["0:Objects", "2:MockDevice"])`
(opcua_client.py line 22): the standard Objects node lives in namespace 0
with browse name "Objects"; the device node was added by the server as
`objects.add_object(idx, "MockDevice")`, so the second element resolves
exactly when its numeric index equals the server's registered index and
its name is "MockDevice". -/
def resolveDevicePath (sp : ServerSpace) (p1 p2 : String) :
    Except ClientError Unit :=
  match parseQualified p1, parseQualified p2 with
  | some q1, some q2 =>
    if q1 = (0, "Objects") then
      if q2.1 = sp.nsIdx ∧ q2.2 = "MockDevice" then .ok ()
      else .error .AddressNotFoundError
    else .error .AddressNotFoundError
  | _, _ => .error .AddressNotFoundError

/-- Resolution of `mock_device.get_child(["i:Name"])` (opcua_client.py
lines 26-28): succeeds with a handle (the tag's browse name) exactly when
the numeric index matches the server's namespace index and a tag of that
name exists in the registry. -/
def deviceGetChild (sp : ServerSpace) (path : String) :
    Except ClientError String :=
  match parseQualified path with
  | some q =>
    if q.1 = sp.nsIdx ∧ (sp.registry.getTag q.2).isSome then .ok q.2
    else .error .AddressNotFoundError
  | none => .error .AddressNotFoundError

/-- A resolved handle's `get_value()` through the transport: reads the
tag's current value from the server registry; failure surfaces as
`ReadError`. -/
def readValue (sp : ServerSpace) (h : String) : Except ClientError ℚ :=
  match Registry.get sp.registry h with
  | .ok v => .ok v
  | .error _ => .error .ReadError

/-- Observable events of the client process: the one-time device
resolution, per-tag `get_child` calls, `get_value` reads, the per-tick
print line, other print lines, entering `time.sleep(1)`, and
`client.disconnect()`. -/
inductive CEvent
  | resolveDeviceEv
  | resolveTag (path : String)
  | readTag (name : String) (v : ℚ)
  | tickLog (t p f : ℚ)
  | log (s : String)
  | sleepEv
  | disconnectEv
deriving DecidableEq

/-- One tag access of the client loop body:
`mock_device.get_child([path]).get_value()`. -/
def clientReadStep (sp : ServerSpace) (path : String) :
    List CEvent × Except ClientError ℚ :=
  match deviceGetChild sp path with
  | .error e => ([.resolveTag path], .error e)
  | .ok h =>
    match readValue sp h with
    | .error e => ([.resolveTag path], .error e)
    | .ok v => ([.resolveTag path, .readTag h v], .ok v)

/-- One iteration of the client's poll loop (opcua_client.py lines 25-31):
re-resolve and read each of the three tags in order (temperature,
pressure, flow), print the line, enter the sleep.  A failing access
aborts the iteration with its error. -/
def clientTick (sp : ServerSpace) : List CEvent × Except ClientError Unit :=
  let s1 := clientReadStep sp tempPath
  match s1.2 with
  | .error e => (s1.1, .error e)
  | .ok t =>
    let s2 := clientReadStep sp pressurePath
    match s2.2 with
    | .error e => (s1.1 ++ s2.1, .error e)
    | .ok p =>
      let s3 := clientReadStep sp flowPath
      match s3.2 with
      | .error e => (s1.1 ++ s2.1 ++ s3.1, .error e)
      | .ok f => (s1.1 ++ s2.1 ++ s3.1 ++ [.tickLog t p f, .sleepEv], .ok ())

/-- Run the client's poll loop for `n` completed iterations (an exhausted
count models the `KeyboardInterrupt` arriving during the last iteration's
sleep); the loop stops early at the first failing iteration. -/
def clientLoopRun (sp : ServerSpace) : Nat → List CEvent × Option ClientError
  | 0 => ([], none)
  | n + 1 =>
    let t := clientTick sp
    match t.2 with
    | .error e => (t.1, some e)
    | .ok _ =>
      let out := clientLoopRun sp n
      (t.1 ++ out.1, out.2)

/-- The client's `try`/`except KeyboardInterrupt`/`finally` structure
(opcua_client.py lines 18-37): resolve the device once, run the poll
loop; on interrupt print the stopped line; in all cases disconnect and
print the disconnected line in the `finally` block; a non-interrupt error
propagates and the process exits with it. -/
def clientRun (sp : ServerSpace) (n : Nat) :
    List CEvent × Except ClientError Unit :=
  match resolveDevicePath sp objectsPath devicePath with
  | .error e =>
    ([.resolveDeviceEv, .disconnectEv, .log "Disconnected from OPC UA server"],
     .error e)
  | .ok _ =>
    let out := clientLoopRun sp n
    match out.2 with
    | none =>
      (.resolveDeviceEv :: out.1 ++
        [.log "Client stopped.", .disconnectEv,
         .log "Disconnected from OPC UA server"], .ok ())
    | some e =>
      (.resolveDeviceEv :: out.1 ++
        [.disconnectEv, .log "Disconnected from OPC UA server"], .error e)

/-- The client including the `client.connect()` call that precedes the
`try` block (opcua_client.py line 15): a connection failure aborts the
process before any resolution, read, or disconnect happens. -/
def clientFullRun (connectOk : Bool) (sp : ServerSpace) (n : Nat) :
    List CEvent × Except ClientError Unit :=
  if connectOk then
    let out := clientRun sp n
    (.log "Connected to OPC UA server" :: out.1, out.2)
  else ([], .error .ConnectionError)

/-- The address space the running server exposes after its setup code,
for a given registered namespace index. -/
def serverSpace (i : Nat) : ServerSpace := ⟨i, setupReg⟩

/-- Recognize per-tag `get_child` resolution events. -/
def isTagResolve : CEvent → Bool
  | .resolveTag _ => true
  | _ => false

/-- A concrete draw triple with every `random.random()` value 0: the
smallest value of each range. -/
def drawZero : Draw := ⟨0, 0, 0⟩

/-- The registry after one update-loop iteration with all draws 0:
each tag holds the lower end of its range. -/
def regZero : Registry :=
  [("Temperature", Tag.mk 20 true),
   ("Pressure", Tag.mk 950 true),
   ("FlowRate", Tag.mk 5 true)]

/-- The setup registry after overwriting the temperature tag with 21. -/
def regT21 : Registry :=
  [("Temperature", Tag.mk 21 true),
   ("Pressure", Tag.mk 1000 true),
   ("FlowRate", Tag.mk 10 true)]

theorem serverSetup_eq : serverSetup = .ok setupReg := by decide

theorem set_ok_iff (r : Registry) (name : String) (v : ℚ) :
    (∃ r2, Registry.set r name v = .ok r2) ↔
      (Registry.getTag r name).map Tag.writable = some true := by
  induction r with
  | nil => simp [Registry.set, Registry.getTag]
  | cons hd tl ih =>
    obtain ⟨n, t⟩ := hd
    by_cases hn : n = name
    · subst hn
      cases hw : t.writable <;>
        simp [Registry.set, Registry.getTag, hw]
    · simp only [Registry.set, Registry.getTag, if_neg hn]
      rw [← ih]
      constructor
      · rintro ⟨r2, hr⟩
        cases hrec : Registry.set tl name v with
        | error e => rw [hrec] at hr; cases hr
        | ok rest2 => exact ⟨rest2, rfl⟩
      · rintro ⟨r2, hr⟩
        rw [hr]
        exact ⟨(n, t) :: r2, rfl⟩

theorem getTag_set (r : Registry) (name : String) (v : ℚ) (r2 : Registry)
    (h : Registry.set r name v = .ok r2) (m : String) :
    Registry.getTag r2 m =
      if name = m then
        (Registry.getTag r m).map (fun t => Tag.mk v t.writable)
      else Registry.getTag r m := by
  induction r generalizing r2 with
  | nil => simp [Registry.set] at h
  | cons hd tl ih =>
    obtain ⟨n, t⟩ := hd
    by_cases hn : n = name
    · subst hn
      cases hw : t.writable with
      | false => simp [Registry.set, hw] at h
      | true =>
        simp only [Registry.set, if_pos rfl, hw, if_pos rfl] at h
        cases h
        by_cases hm : n = m
        · subst hm
          simp [Registry.getTag, hw]
        · simp [Registry.getTag, hm, if_neg hm]
    · simp only [Registry.set, if_neg hn] at h
      cases hrec : Registry.set tl name v with
      | error e => rw [hrec] at h; cases h
      | ok rest2 =>
        rw [hrec] at h
        cases h
        by_cases hm : n = m
        · subst hm
          have hnm : ¬ name = n := fun hc => hn hc.symm
          simp [Registry.getTag, if_neg hnm]
        · simp only [Registry.getTag, if_neg hm]
          exact ih rest2 hrec

theorem get_set_self (r : Registry) (name : String) (v : ℚ) (r2 : Registry)
    (h : Registry.set r name v = .ok r2) :
    Registry.get r2 name = .ok v := by
  have hw := (set_ok_iff r name v).mp ⟨r2, h⟩
  have hg := getTag_set r name v r2 h name
  rw [if_pos rfl] at hg
  cases ht : Registry.getTag r name with
  | none => rw [ht] at hw; cases hw
  | some t =>
    rw [ht] at hg
    unfold Registry.get
    rw [hg]
    simp

theorem get_set_frame (r : Registry) (name : String) (v : ℚ) (r2 : Registry)
    (h : Registry.set r name v = .ok r2) (m : String) (hm : m ≠ name) :
    Registry.get r2 m = Registry.get r m := by
  have hg := getTag_set r name v r2 h m
  rw [if_neg (fun hc => hm hc.symm)] at hg
  unfold Registry.get
  rw [hg]

theorem hasTags_set (r : Registry) (name : String) (v : ℚ) (r2 : Registry)
    (h : Registry.set r name v = .ok r2) (ht : hasTags r) : hasTags r2 := by
  intro n hn
  have hg := getTag_set r name v r2 h n
  by_cases hname : name = n
  · rw [if_pos hname] at hg
    have := ht n hn
    cases hcase : Registry.getTag r n with
    | none => rw [hcase] at this; cases this
    | some t =>
      rw [hcase] at this hg
      rw [hg]
      simpa using this
  · rw [if_neg hname] at hg
    rw [hg]
    exact ht n hn

theorem serverTick_ok (r : Registry) (d : Draw) (ht : hasTags r) :
    ∃ r2, serverTick r d =
      ([.update "Temperature" (uniformDraw 20 30 d.uTemp),
        .update "Pressure" (uniformDraw 950 1050 d.uPress),
        .update "FlowRate" (uniformDraw 5 15 d.uFlow),
        .tickLog (uniformDraw 20 30 d.uTemp) (uniformDraw 950 1050 d.uPress)
          (uniformDraw 5 15 d.uFlow),
        .sleepEv], .ok r2) ∧ hasTags r2 := by
  obtain ⟨r1, h1⟩ :=
    (set_ok_iff r "Temperature" (uniformDraw 20 30 d.uTemp)).mpr
      (ht "Temperature" (by decide))
  have ht1 := hasTags_set r "Temperature" _ r1 h1 ht
  obtain ⟨r2, h2⟩ :=
    (set_ok_iff r1 "Pressure" (uniformDraw 950 1050 d.uPress)).mpr
      (ht1 "Pressure" (by decide))
  have ht2 := hasTags_set r1 "Pressure" _ r2 h2 ht1
  obtain ⟨r3, h3⟩ :=
    (set_ok_iff r2 "FlowRate" (uniformDraw 5 15 d.uFlow)).mpr
      (ht2 "FlowRate" (by decide))
  have ht3 := hasTags_set r2 "FlowRate" _ r3 h3 ht2
  refine ⟨r3, ?_, ht3⟩
  simp only [serverTick, h1, h2, h3]

theorem serverLoopRun_no_error (r : Registry) (draws : List Draw)
    (ht : hasTags r) : (serverLoopRun r draws).2.2 = none := by
  induction draws generalizing r with
  | nil => rfl
  | cons d rest ih =>
    obtain ⟨r2, htick, ht2⟩ := serverTick_ok r d ht
    simp only [serverLoopRun, htick]
    exact ih r2 ht2

theorem serverLoopRun_count_log (r : Registry) (draws : List Draw)
    (ht : hasTags r) (s : String) :
    (serverLoopRun r draws).1.count (SEvent.log s) = 0 := by
  induction draws generalizing r with
  | nil => rfl
  | cons d rest ih =>
    obtain ⟨r2, htick, ht2⟩ := serverTick_ok r d ht
    simp only [serverLoopRun, htick, List.count_append]
    rw [ih r2 ht2]
    simp [List.count_cons]



/-- C1: the endpoint constants of the two scripts do not match: the server
listens on port 4842 while the client connects to port 4841, so the two
endpoint strings differ (the three tag-path names do match the server's
tag names under namespace index 2). -/
theorem c1_endpoint_mismatch :
    endpointPort serverEndpoint = some 4842 ∧
    endpointPort clientEndpoint = some 4841 ∧
    serverEndpoint ≠ clientEndpoint ∧
    parseQualified tempPath = some (2, "Temperature") ∧
    parseQualified pressurePath = some (2, "Pressure") ∧
    parseQualified flowPath = some (2, "FlowRate") ∧
    (setupReg.getTag "Temperature").isSome = true ∧
    (setupReg.getTag "Pressure").isSome = true ∧
    (setupReg.getTag "FlowRate").isSome = true := by
  refine ⟨?_, ?_, ?_, ?_, ?_, ?_, ?_, ?_, ?_⟩ <;> decide

/-- C5: when a `KeyboardInterrupt` arrives during the sleep between ticks,
the server prints the "Shutting down server..." line exactly once (and the
finally-block confirmation "Server stopped." exactly once), performs no
tag update after the interrupt, stops the listening endpoint, and exits
cleanly. -/
theorem c5_interrupt_clean_shutdown (draws : List Draw) :
    ((serverRunFrom setupReg draws).1.count
      (SEvent.log "Shutting down server...") = 1) ∧
    ((serverRunFrom setupReg draws).1.count
      (SEvent.log "Server stopped.") = 1) ∧
    (∃ pre, (serverRunFrom setupReg draws).1 = pre ++ serverShutdownEvents ∧
      ∀ n v, SEvent.update n v ∉ serverShutdownEvents) ∧
    SEvent.stopEndpoint ∈ (serverRunFrom setupReg draws).1 ∧
    (serverRunFrom setupReg draws).2 = .ok () := by
  have hts : hasTags setupReg := by decide
  have hnone := serverLoopRun_no_error setupReg draws hts
  have hrun : serverRunFrom setupReg draws =
      ((serverLoopRun setupReg draws).1 ++ serverShutdownEvents, .ok ()) := by
    simp only [serverRunFrom, hnone]
  rw [hrun]
  refine ⟨?_, ?_,
    ⟨(serverLoopRun setupReg draws).1, rfl,
      by intro n v; simp [serverShutdownEvents]⟩, ?_, rfl⟩
  · rw [List.count_append, serverLoopRun_count_log setupReg draws hts]
    decide
  · rw [List.count_append, serverLoopRun_count_log setupReg draws hts]
    decide
  · exact List.mem_append_right _ (by decide)

/-- C8: the server's setup code creates the three tags and raises the
writable flag on each before the update loop starts; under that
precondition a `set` on any of the three tags always succeeds, so the
`NotWritableError` branch is unreachable in the running server (the loop
never produces any registry error at all). -/
theorem c8_set_never_not_writable :
    serverSetup = .ok setupReg ∧
    (∀ n ∈ tagNames,
      (Registry.getTag setupReg n).map Tag.writable = some true) ∧
    (∀ n ∈ tagNames, ∀ v : ℚ, ∃ r2, Registry.set setupReg n v = .ok r2) ∧
    (∀ draws : List Draw, (serverLoopRun setupReg draws).2.2 = none) := by
  refine ⟨serverSetup_eq, by decide, ?_, ?_⟩
  · intro n hn v
    exact (set_ok_iff setupReg n v).mpr ((by decide : hasTags setupReg) n hn)
  · intro draws
    exact serverLoopRun_no_error setupReg draws (by decide)

/-- Witness for C8 at the temperature tag and value 99. -/
theorem c8_set_never_not_writable_witness :
    "Temperature" ∈ tagNames ∧
    (∃ r2, Registry.set setupReg "Temperature" 99 = .ok r2) :=
  ⟨by decide, c8_set_never_not_writable.2.2.1 "Temperature" (by decide) 99⟩

/-- C9: on every modelled termination path — interrupt during the sleep
or any error aborting the loop — the server's `finally` block stops the
listening endpoint, and the client's `finally` block disconnects the
session; neither happens only on the interrupt path. -/
theorem c9_resource_release :
    (∀ (r : Registry) (draws : List Draw),
      SEvent.stopEndpoint ∈ (serverRunFrom r draws).1) ∧
    (∀ (sp : ServerSpace) (n : Nat),
      CEvent.disconnectEv ∈ (clientFullRun true sp n).1) := by
  constructor
  · intro r draws
    cases h : (serverLoopRun r draws).2.2 with
    | none =>
      simp only [serverRunFrom, h]
      exact List.mem_append_right _ (by decide)
    | some e =>
      simp only [serverRunFrom, h]
      exact List.mem_append_right _ (by decide)
  · intro sp n
    have hmem : CEvent.disconnectEv ∈ (clientRun sp n).1 := by
      cases hres : resolveDevicePath sp objectsPath devicePath with
      | error e =>
        simp only [clientRun, hres]
        decide
      | ok u =>
        cases hloop : (clientLoopRun sp n).2 with
        | none =>
          simp only [clientRun, hres, hloop]
          simp [List.mem_append]
        | some e =>
          simp only [clientRun, hres, hloop]
          simp [List.mem_append]
    simp only [clientFullRun, if_pos rfl]
    exact List.mem_cons_of_mem _ hmem

/-- C7: every error raised inside either loop aborts that loop at once —
the remaining iterations are discarded, nothing is retried and no tag is
skipped — and the process terminates with that error after the `finally`
block; a connection failure likewise aborts before any iteration runs. -/
theorem c7_errors_abort :
    (∀ (r : Registry) (d : Draw) (rest : List Draw) (e : RegError),
      (serverTick r d).2 = .error e →
      serverLoopRun r (d :: rest) = ((serverTick r d).1, r, some e) ∧
      (serverRunFrom r (d :: rest)).2 = .error e) ∧
    (∀ (sp : ServerSpace) (n : Nat) (e : ClientError),
      (clientTick sp).2 = .error e →
      clientLoopRun sp (n + 1) = ((clientTick sp).1, some e) ∧
      (resolveDevicePath sp objectsPath devicePath = .ok () →
        (clientRun sp (n + 1)).2 = .error e)) ∧
    (∀ (sp : ServerSpace) (n : Nat) (e : ClientError),
      resolveDevicePath sp objectsPath devicePath = .error e →
      (clientRun sp n).2 = .error e) ∧
    (∀ (sp : ServerSpace) (n : Nat),
      clientFullRun false sp n = ([], .error .ConnectionError)) := by
  refine ⟨?_, ?_, ?_, ?_⟩
  · intro r d rest e h
    have h1 : serverLoopRun r (d :: rest) = ((serverTick r d).1, r, some e) := by
      simp only [serverLoopRun, h]
    refine ⟨h1, ?_⟩
    simp only [serverRunFrom, h1]
  · intro sp n e h
    have h1 : clientLoopRun sp (n + 1) = ((clientTick sp).1, some e) := by
      simp only [clientLoopRun, h]
    refine ⟨h1, fun hres => ?_⟩
    simp only [clientRun, hres, h1]
  · intro sp n e h
    simp only [clientRun, h]
  · intro sp n
    rfl

/-- Witness for C7: an empty registry makes the first server `set` fail
with `UnknownTagError`, and a server namespace index of 0 makes the
client's resolutions fail with `AddressNotFoundError`; in each case the
loop stops immediately and the process exits with the error. -/
theorem c7_errors_abort_witness :
    ((serverTick [] ⟨0, 0, 0⟩).2 = .error .UnknownTagError ∧
      serverLoopRun [] [⟨0, 0, 0⟩, ⟨1, 1, 1⟩] =
        ((serverTick [] ⟨0, 0, 0⟩).1, [], some .UnknownTagError)) ∧
    ((clientTick (serverSpace 0)).2 = .error .AddressNotFoundError ∧
      clientLoopRun (serverSpace 0) 2 =
        ((clientTick (serverSpace 0)).1, some .AddressNotFoundError)) ∧
    (resolveDevicePath (serverSpace 0) objectsPath devicePath =
        .error .AddressNotFoundError ∧
      (clientRun (serverSpace 0) 5).2 = .error .AddressNotFoundError) ∧
    clientFullRun false (serverSpace 0) 3 = ([], .error .ConnectionError) :=
  ⟨⟨by decide,
    (c7_errors_abort.1 [] ⟨0, 0, 0⟩ [⟨1, 1, 1⟩] .UnknownTagError (by decide)).1⟩,
   ⟨by decide,
    (c7_errors_abort.2.1 (serverSpace 0) 1 .AddressNotFoundError (by decide)).1⟩,
   ⟨by decide,
    c7_errors_abort.2.2.1 (serverSpace 0) 5 .AddressNotFoundError (by decide)⟩,
   c7_errors_abort.2.2.2 (serverSpace 0) 3⟩

theorem serverLoopRun_cons_error (r : Registry) (d : Draw) (rest : List Draw)
    (e : RegError) (h : (serverTick r d).2 = .error e) :
    serverLoopRun r (d :: rest) = ((serverTick r d).1, r, some e) := by
  simp only [serverLoopRun, h]

theorem serverLoopRun_cons_ok (r : Registry) (d : Draw) (rest : List Draw)
    (r2 : Registry) (h : (serverTick r d).2 = .ok r2) :
    serverLoopRun r (d :: rest) =
      ((serverTick r d).1 ++ (serverLoopRun r2 rest).1,
        (serverLoopRun r2 rest).2.1, (serverLoopRun r2 rest).2.2) := by
  simp only [serverLoopRun, h]

theorem uniformDraw_mem (a b u : ℚ) (hab : a < b) (h0 : 0 ≤ u) (h1 : u < 1) :
    a ≤ uniformDraw a b u ∧ uniformDraw a b u < b := by
  unfold uniformDraw
  constructor
  · nlinarith
  · nlinarith

theorem inBounds_temp (d : Draw) (hd : validDraw d) :
    inBounds "Temperature" (uniformDraw 20 30 d.uTemp) := by
  intro lo hi hr
  rw [show tagRange "Temperature" = some (20, 30) from rfl] at hr
  simp only [Option.some.injEq, Prod.mk.injEq] at hr
  obtain ⟨rfl, rfl⟩ := hr
  exact uniformDraw_mem 20 30 d.uTemp (by norm_num) hd.1.1 hd.1.2

theorem inBounds_press (d : Draw) (hd : validDraw d) :
    inBounds "Pressure" (uniformDraw 950 1050 d.uPress) := by
  intro lo hi hr
  rw [show tagRange "Pressure" = some (950, 1050) from rfl] at hr
  simp only [Option.some.injEq, Prod.mk.injEq] at hr
  obtain ⟨rfl, rfl⟩ := hr
  exact uniformDraw_mem 950 1050 d.uPress (by norm_num) hd.2.1.1 hd.2.1.2

theorem inBounds_flow (d : Draw) (hd : validDraw d) :
    inBounds "FlowRate" (uniformDraw 5 15 d.uFlow) := by
  intro lo hi hr
  rw [show tagRange "FlowRate" = some (5, 15) from rfl] at hr
  simp only [Option.some.injEq, Prod.mk.injEq] at hr
  obtain ⟨rfl, rfl⟩ := hr
  exact uniformDraw_mem 5 15 d.uFlow (by norm_num) hd.2.2.1 hd.2.2.2

theorem serverTick_update_bounds (r : Registry) (d : Draw) (hd : validDraw d)
    (name : String) (v : ℚ)
    (hmem : SEvent.update name v ∈ (serverTick r d).1) : inBounds name v := by
  have htemp := inBounds_temp d hd
  have hpress := inBounds_press d hd
  have hflow := inBounds_flow d hd
  simp only [serverTick] at hmem
  cases h1 : Registry.set r "Temperature" (uniformDraw 20 30 d.uTemp) with
  | error e =>
    simp only [h1] at hmem
    simp at hmem
    obtain ⟨rfl, rfl⟩ := hmem
    exact htemp
  | ok r1 =>
    simp only [h1] at hmem
    cases h2 : Registry.set r1 "Pressure" (uniformDraw 950 1050 d.uPress) with
    | error e =>
      simp only [h2] at hmem
      simp at hmem
      rcases hmem with ⟨rfl, rfl⟩ | ⟨rfl, rfl⟩
      · exact htemp
      · exact hpress
    | ok r2 =>
      simp only [h2] at hmem
      cases h3 : Registry.set r2 "FlowRate" (uniformDraw 5 15 d.uFlow) with
      | error e =>
        simp only [h3] at hmem
        simp at hmem
        rcases hmem with ⟨rfl, rfl⟩ | ⟨rfl, rfl⟩ | ⟨rfl, rfl⟩
        · exact htemp
        · exact hpress
        · exact hflow
      | ok r3 =>
        simp only [h3] at hmem
        simp at hmem
        rcases hmem with ⟨rfl, rfl⟩ | ⟨rfl, rfl⟩ | ⟨rfl, rfl⟩
        · exact htemp
        · exact hpress
        · exact hflow

/-- C3: every value the update loop writes into the registry lies within
that tag's declared half-open bound — Temperature in [20, 30), Pressure
in [950, 1050), FlowRate in [5, 15) — whenever the underlying
`random.random()` draws lie in [0, 1). -/
theorem c3_values_in_bounds (r : Registry) (draws : List Draw) :
    (∀ d ∈ draws, validDraw d) → ∀ (name : String) (v : ℚ),
      SEvent.update name v ∈ (serverLoopRun r draws).1 → inBounds name v := by
  induction draws generalizing r with
  | nil =>
    intro _ name v hmem
    simp [serverLoopRun] at hmem
  | cons d rest ih =>
    intro hv name v hmem
    cases ht : (serverTick r d).2 with
    | error e =>
      rw [serverLoopRun_cons_error r d rest e ht] at hmem
      exact serverTick_update_bounds r d (hv d (List.mem_cons_self d rest))
        name v hmem
    | ok r2 =>
      rw [serverLoopRun_cons_ok r d rest r2 ht] at hmem
      rcases List.mem_append.mp hmem with hmem | hmem
      · exact serverTick_update_bounds r d (hv d (List.mem_cons_self d rest))
          name v hmem
      · exact ih r2 (fun d2 hd2 => hv d2 (List.mem_cons_of_mem _ hd2))
          name v hmem

theorem serverLoopRun_drawZero :
    serverLoopRun setupReg [drawZero] =
      ([.update "Temperature" 20, .update "Pressure" 950,
        .update "FlowRate" 5, .tickLog 20 950 5, .sleepEv], regZero, none) := by
  have hu1 : uniformDraw 20 30 drawZero.uTemp = 20 := by
    simp [uniformDraw, drawZero]
  have hu2 : uniformDraw 950 1050 drawZero.uPress = 950 := by
    simp [uniformDraw, drawZero]
  have hu3 : uniformDraw 5 15 drawZero.uFlow = 5 := by
    simp [uniformDraw, drawZero]
  have htick : serverTick setupReg drawZero =
      ([.update "Temperature" 20, .update "Pressure" 950,
        .update "FlowRate" 5, .tickLog 20 950 5, .sleepEv], .ok regZero) := by
    simp only [serverTick, hu1, hu2, hu3]
    decide
  simp only [serverLoopRun, htick]
  simp

/-- Witness for C3 at one tick with all three draws equal to 0. -/
theorem c3_values_in_bounds_witness :
    (∀ d ∈ [drawZero], validDraw d) ∧
    SEvent.update "Temperature" 20 ∈ (serverLoopRun setupReg [drawZero]).1 ∧
    inBounds "Temperature" 20 :=
  ⟨by decide, by simp [serverLoopRun_drawZero],
    c3_values_in_bounds setupReg [drawZero] (by decide) "Temperature" 20
      (by simp [serverLoopRun_drawZero])⟩

/-- C4 counterexample: the update loop's first iteration runs immediately
after the server starts and its writes precede the first sleep; with all
draws 0 the registry already holds Temperature=20 during the first
one-second interval, so a client read made before the first tick period
has elapsed returns 20, not the default 25. -/
theorem c4_counterexample :
    (serverLoopRun setupReg [drawZero]).1 =
      [SEvent.update "Temperature" 20, SEvent.update "Pressure" 950,
       SEvent.update "FlowRate" 5, SEvent.tickLog 20 950 5,
       SEvent.sleepEv] ∧
    Registry.get (serverLoopRun setupReg [drawZero]).2.1 "Temperature" =
      .ok 20 ∧
    CEvent.readTag "Temperature" 20 ∈
      (clientTick ⟨2, (serverLoopRun setupReg [drawZero]).2.1⟩).1 ∧
    ¬ ((20 : ℚ) = 25) := by
  rw [serverLoopRun_drawZero]
  exact ⟨rfl, by decide, by decide, by decide⟩

/-- C4 amended: a client connect-and-read made after server start but
before the update loop's first iteration — which runs immediately, before
the first sleep — returns exactly the three defaults 25.0, 1000.0, 10.0. -/
theorem c4_defaults_before_first_iteration :
    Registry.get setupReg "Temperature" = .ok 25 ∧
    Registry.get setupReg "Pressure" = .ok 1000 ∧
    Registry.get setupReg "FlowRate" = .ok 10 ∧
    clientTick (serverSpace 2) =
      ([.resolveTag tempPath, .readTag "Temperature" 25,
        .resolveTag pressurePath, .readTag "Pressure" 1000,
        .resolveTag flowPath, .readTag "FlowRate" 10,
        .tickLog 25 1000 10, .sleepEv], .ok ()) := by
  exact ⟨by decide, by decide, by decide, by decide⟩

theorem clientLoopRun_succ_error (sp : ServerSpace) (k : Nat) (e : ClientError)
    (h : (clientTick sp).2 = .error e) :
    clientLoopRun sp (k + 1) = ((clientTick sp).1, some e) := by
  simp only [clientLoopRun, h]

theorem clientLoopRun_succ_ok (sp : ServerSpace) (k : Nat)
    (h : (clientTick sp).2 = .ok ()) :
    clientLoopRun sp (k + 1) =
      ((clientTick sp).1 ++ (clientLoopRun sp k).1, (clientLoopRun sp k).2) := by
  simp only [clientLoopRun, h]

theorem readStep_readTag (sp : ServerSpace) (path : String) (name : String)
    (v : ℚ) (hmem : CEvent.readTag name v ∈ (clientReadStep sp path).1) :
    readValue sp name = .ok v := by
  simp only [clientReadStep] at hmem
  cases hg : deviceGetChild sp path with
  | error e =>
    simp only [hg] at hmem
    simp at hmem
  | ok h =>
    simp only [hg] at hmem
    cases hr : readValue sp h with
    | error e =>
      simp only [hr] at hmem
      simp at hmem
    | ok w =>
      simp only [hr] at hmem
      simp at hmem
      obtain ⟨rfl, rfl⟩ := hmem
      exact hr

theorem clientTick_readTag (sp : ServerSpace) (name : String) (v : ℚ)
    (hmem : CEvent.readTag name v ∈ (clientTick sp).1) :
    readValue sp name = .ok v := by
  simp only [clientTick] at hmem
  cases h1 : (clientReadStep sp tempPath).2 with
  | error e =>
    simp only [h1] at hmem
    exact readStep_readTag sp tempPath name v hmem
  | ok t =>
    simp only [h1] at hmem
    cases h2 : (clientReadStep sp pressurePath).2 with
    | error e =>
      simp only [h2] at hmem
      rcases List.mem_append.mp hmem with h | h
      · exact readStep_readTag sp tempPath name v h
      · exact readStep_readTag sp pressurePath name v h
    | ok p =>
      simp only [h2] at hmem
      cases h3 : (clientReadStep sp flowPath).2 with
      | error e =>
        simp only [h3] at hmem
        rcases List.mem_append.mp hmem with h | h
        · rcases List.mem_append.mp h with h | h
          · exact readStep_readTag sp tempPath name v h
          · exact readStep_readTag sp pressurePath name v h
        · exact readStep_readTag sp flowPath name v h
      | ok f =>
        simp only [h3] at hmem
        rcases List.mem_append.mp hmem with h | h
        · rcases List.mem_append.mp h with h | h
          · rcases List.mem_append.mp h with h | h
            · exact readStep_readTag sp tempPath name v h
            · exact readStep_readTag sp pressurePath name v h
          · exact readStep_readTag sp flowPath name v h
        · simp at h

theorem clientLoopRun_readTag (sp : ServerSpace) (n : Nat) (name : String)
    (v : ℚ) (hmem : CEvent.readTag name v ∈ (clientLoopRun sp n).1) :
    readValue sp name = .ok v := by
  induction n with
  | zero => simp [clientLoopRun] at hmem
  | succ k ih =>
    cases ht : (clientTick sp).2 with
    | error e =>
      rw [clientLoopRun_succ_error sp k e ht] at hmem
      exact clientTick_readTag sp name v hmem
    | ok u =>
      cases u
      rw [clientLoopRun_succ_ok sp k ht] at hmem
      rcases List.mem_append.mp hmem with h | h
      · exact clientTick_readTag sp name v h
      · exact ih h

theorem clientRun_readTag (sp : ServerSpace) (n : Nat) (name : String)
    (v : ℚ) (hmem : CEvent.readTag name v ∈ (clientRun sp n).1) :
    readValue sp name = .ok v := by
  cases hres : resolveDevicePath sp objectsPath devicePath with
  | error e =>
    simp only [clientRun, hres] at hmem
    simp at hmem
  | ok u =>
    cases u
    cases hloop : (clientLoopRun sp n).2 with
    | none =>
      simp only [clientRun, hres, hloop] at hmem
      simp at hmem
      exact clientLoopRun_readTag sp n name v hmem
    | some e =>
      simp only [clientRun, hres, hloop] at hmem
      simp at hmem
      exact clientLoopRun_readTag sp n name v hmem

/-- C6: a registry `get` after a `set` with value V returns exactly V and
keeps doing so across `set`s of other tags (round-trip identity until the
next `set` of that tag); consequently, all client reads of one tag within
a run against a fixed registry state — i.e. with no intervening server
tick — return identical values. -/
theorem c6_get_after_set :
    (∀ (r : Registry) (name : String) (v : ℚ) (r2 : Registry),
      Registry.set r name v = .ok r2 →
      Registry.get r2 name = .ok v ∧
      ∀ (m : String) (w : ℚ) (r3 : Registry), m ≠ name →
        Registry.set r2 m w = .ok r3 → Registry.get r3 name = .ok v) ∧
    (∀ (sp : ServerSpace) (n : Nat) (name : String) (v1 v2 : ℚ),
      CEvent.readTag name v1 ∈ (clientRun sp n).1 →
      CEvent.readTag name v2 ∈ (clientRun sp n).1 → v1 = v2) := by
  constructor
  · intro r name v r2 hset
    refine ⟨get_set_self r name v r2 hset, ?_⟩
    intro m w r3 hm hset2
    rw [get_set_frame r2 m w r3 hset2 name (fun hc => hm hc.symm)]
    exact get_set_self r name v r2 hset
  · intro sp n name v1 v2 h1 h2
    have e1 := clientRun_readTag sp n name v1 h1
    have e2 := clientRun_readTag sp n name v2 h2
    rw [e1] at e2
    exact Except.ok.inj e2

/-- Witness for C6: setting Temperature to 21 and reading it back, and two
identical reads of Temperature in a one-tick client run. -/
theorem c6_get_after_set_witness :
    Registry.set setupReg "Temperature" 21 = .ok regT21 ∧
    Registry.get regT21 "Temperature" = .ok 21 ∧
    CEvent.readTag "Temperature" 25 ∈ (clientRun (serverSpace 2) 1).1 ∧
    (25 : ℚ) = 25 :=
  ⟨by decide,
   (c6_get_after_set.1 setupReg "Temperature" 21 regT21 (by decide)).1,
   by decide,
   c6_get_after_set.2 (serverSpace 2) 1 "Temperature" 25 25 (by decide)
     (by decide)⟩

theorem clientTick_serverSpace2 :
    clientTick (serverSpace 2) =
      ([.resolveTag tempPath, .readTag "Temperature" 25,
        .resolveTag pressurePath, .readTag "Pressure" 1000,
        .resolveTag flowPath, .readTag "FlowRate" 10,
        .tickLog 25 1000 10, .sleepEv], .ok ()) := by decide

theorem clientLoopRun_resolve_counts (n : Nat) :
    (clientLoopRun (serverSpace 2) n).1.countP isTagResolve = 3 * n ∧
    (clientLoopRun (serverSpace 2) n).1.count CEvent.resolveDeviceEv = 0 ∧
    (clientLoopRun (serverSpace 2) n).2 = none := by
  induction n with
  | zero => exact ⟨rfl, rfl, rfl⟩
  | succ k ih =>
    obtain ⟨ih1, ih2, ih3⟩ := ih
    rw [clientLoopRun_succ_ok (serverSpace 2) k (by decide)]
    rw [clientTick_serverSpace2]
    refine ⟨?_, ?_, ih3⟩
    · rw [List.countP_append, ih1]
      have hc : ([CEvent.resolveTag tempPath, CEvent.readTag "Temperature" 25,
          CEvent.resolveTag pressurePath, CEvent.readTag "Pressure" 1000,
          CEvent.resolveTag flowPath, CEvent.readTag "FlowRate" 10,
          CEvent.tickLog 25 1000 10, CEvent.sleepEv]).countP
            isTagResolve = 3 := by decide
      rw [hc]
      omega
    · rw [List.count_append, ih2]
      decide

/-- C2 counterexample: over two iterations of the poll loop against the
running server the client performs six per-tag `get_child` resolutions,
not three — the tag-address lookup is repeated on every tick instead of
being done once and cached. -/
theorem c2_counterexample :
    (clientRun (serverSpace 2) 2).1.countP isTagResolve = 6 ∧
    ¬ ((6 : Nat) = 3) := by
  exact ⟨by decide, by decide⟩

/-- C2 amended: the client resolves the device object node exactly once
per run and caches that handle; the three tag addresses are re-resolved
through the cached device handle on every tick — exactly three per-tag
resolutions per iteration — and each value is read through the freshly
resolved node. -/
theorem c2_device_once_tags_every_tick (n : Nat) :
    (clientRun (serverSpace 2) n).1.count CEvent.resolveDeviceEv = 1 ∧
    (clientRun (serverSpace 2) n).1.countP isTagResolve = 3 * n := by
  have hres : resolveDevicePath (serverSpace 2) objectsPath devicePath =
      .ok () := by decide
  obtain ⟨h1, h2, h3⟩ := clientLoopRun_resolve_counts n
  have hrun : clientRun (serverSpace 2) n =
      (.resolveDeviceEv :: (clientLoopRun (serverSpace 2) n).1 ++
        [.log "Client stopped.", .disconnectEv,
         .log "Disconnected from OPC UA server"], .ok ()) := by
    simp only [clientRun, hres, h3]
  rw [hrun]
  constructor
  · simp only [List.cons_append, List.count_cons, List.count_append, h2]
    decide
  · simp only [List.cons_append, List.countP_cons, List.countP_append, h1]
    have hz : (isTagResolve CEvent.resolveDeviceEv = true) = False := by
      decide
    simp [isTagResolve]

theorem resolveDevice_ne2 (i : Nat) (hi : ¬ i = 2) :
    resolveDevicePath (serverSpace i) objectsPath devicePath =
      .error .AddressNotFoundError := by
  have h1 : parseQualified objectsPath = some (0, "Objects") := by decide
  have h2 : parseQualified devicePath = some (2, "MockDevice") := by decide
  simp only [resolveDevicePath, h1, h2]
  rw [if_pos trivial]
  split
  · rename_i hcond
    exact absurd (show i = 2 from hcond.1.symm) hi
  · rfl

theorem resolveDevice_iff (i : Nat) :
    (resolveDevicePath (serverSpace i) objectsPath devicePath = .ok ()) ↔
      i = 2 := by
  by_cases hc : i = 2
  · subst hc
    decide
  · rw [resolveDevice_ne2 i hc]
    simp [hc]

theorem clientTick_ne2 (i : Nat) (hi : ¬ i = 2) :
    clientTick (serverSpace i) =
      ([.resolveTag tempPath], .error .AddressNotFoundError) := by
  have hp : parseQualified tempPath = some (2, "Temperature") := by decide
  have hg : deviceGetChild (serverSpace i) tempPath =
      .error .AddressNotFoundError := by
    simp only [deviceGetChild, hp]
    split
    · rename_i hcond
      exact absurd (show i = 2 from hcond.1.symm) hi
    · rfl
  have hs : clientReadStep (serverSpace i) tempPath =
      ([.resolveTag tempPath], .error .AddressNotFoundError) := by
    simp only [clientReadStep, hg]
  simp only [clientTick, hs]

/-- C10: the client's browse-path constants carry the hard-coded numeric
namespace index 2 ("2:MockDevice", "2:Temperature", "2:Pressure",
"2:FlowRate"), and against the running server's address space the
one-time device resolution, the per-tick tag accesses, and the whole
client run succeed exactly when the server's `register_namespace` call
returned index 2 for its URI. -/
theorem c10_namespace_index_two (i n : Nat) :
    parseQualified devicePath = some (2, "MockDevice") ∧
    parseQualified tempPath = some (2, "Temperature") ∧
    parseQualified pressurePath = some (2, "Pressure") ∧
    parseQualified flowPath = some (2, "FlowRate") ∧
    ((resolveDevicePath (serverSpace i) objectsPath devicePath = .ok ()) ↔
      i = 2) ∧
    (((clientTick (serverSpace i)).2 = .ok ()) ↔ i = 2) ∧
    (((clientRun (serverSpace i) n).2 = .ok ()) ↔ i = 2) := by
  refine ⟨by decide, by decide, by decide, by decide,
    resolveDevice_iff i, ?_, ?_⟩
  · by_cases hc : i = 2
    · subst hc
      decide
    · rw [clientTick_ne2 i hc]
      simp [hc]
  · by_cases hc : i = 2
    · subst hc
      have hres : resolveDevicePath (serverSpace 2) objectsPath devicePath =
          .ok () := by decide
      have h3 := (clientLoopRun_resolve_counts n).2.2
      simp only [clientRun, hres, h3]
    · have hne := resolveDevice_ne2 i hc
      simp only [clientRun, hne]
      simp [hc]
